import Mathlib

/-!
Verification of the PD controller in `src/uuv_mission/control.py`.

Python floats are modelled as rational numbers (exact real arithmetic over the
field operations the code uses); Python's `float` division raises
`ZeroDivisionError` when the divisor is zero, which the embedding models with
an `Except` result whose error value carries the object state at the point of
the raise (in CPython an exception aborts the method body, leaving every field
with the value it had when the raising statement executed).
-/

/-- Runtime errors the Python code can raise: division of floats by zero. -/
inductive PyError where
  | zeroDivisionError
deriving DecidableEq

/-- The `PDController` class: proportional gain `kp`, derivative gain `kd`,
timestep `dt`, and the optional previous error `_last_error`. -/
structure PDController where
  kp : ℚ
  kd : ℚ
  dt : ℚ
  last_error : Option ℚ
deriving DecidableEq

namespace PDController

/-- `__init__(kp, kd, dt)`: store the parameters; `_last_error` starts as
`None`.  (The Python defaults are `kp=0.15`, `kd=0.6`, `dt=1.0`.) -/
def init (kp kd dt : ℚ) : PDController :=
  ⟨kp, kd, dt, none⟩

/-- Python float division: raises `ZeroDivisionError` when the divisor is
zero, otherwise yields the exact quotient. -/
def fdiv (a b : ℚ) : Except PyError ℚ :=
  if b = 0 then Except.error PyError.zeroDivisionError else Except.ok (a / b)

/-- `control(reference, observation)`:
`error = reference - observation`; `derivative = 0.0` when `_last_error is
None`, else `(error - _last_error) / dt` (which raises when `dt == 0`);
`u = kp*error + kd*derivative`; finally `_last_error = error` and `u` is
returned.  A raise propagates with the object state unchanged, because the
assignment to `_last_error` comes after the division in the source. -/
def control (c : PDController) (reference observation : ℚ) :
    Except (PyError × PDController) (ℚ × PDController) :=
  let error := reference - observation
  match c.last_error with
  | none =>
      let derivative : ℚ := 0
      let u := c.kp * error + c.kd * derivative
      Except.ok (u, { c with last_error := some error })
  | some le =>
      match fdiv (error - le) c.dt with
      | Except.error e => Except.error (e, c)
      | Except.ok derivative =>
          let u := c.kp * error + c.kd * derivative
          Except.ok (u, { c with last_error := some error })

/-- `reset()`: set `_last_error` back to `None`. -/
def reset (c : PDController) : PDController :=
  { c with last_error := none }

end PDController

/-- One public operation on a controller. -/
inductive Op where
  | control (reference observation : ℚ)
  | reset
deriving DecidableEq

/-- The controller state after one operation.  A raising `control` call leaves
the state exactly as it was at the raise. -/
def step (c : PDController) : Op → PDController
  | Op.control r o =>
      match c.control r o with
      | Except.ok (_, c') => c'
      | Except.error (_, cRaise) => cRaise
  | Op.reset => c.reset

/-- The controller state after a sequence of operations. -/
def runOps (c : PDController) : List Op → PDController
  | [] => c
  | op :: ops => runOps (step c op) ops

/-- The actions returned by a sequence of `control` calls; a raise ends the
run with the propagated exception. -/
def controlTrace (c : PDController) : List (ℚ × ℚ) → List (Except PyError ℚ)
  | [] => []
  | (r, o) :: rest =>
      match c.control r o with
      | Except.ok (u, c') => Except.ok u :: controlTrace c' rest
      | Except.error (e, _) => [Except.error e]

namespace PDController

/-- With no stored error, `control` succeeds with a zero derivative term. -/
theorem control_none_eq (c : PDController) (r o : ℚ) (h : c.last_error = none) :
    c.control r o =
      Except.ok (c.kp * (r - o), { c with last_error := some (r - o) }) := by
  simp [control, h]

/-- With a stored error and a non-zero `dt`, `control` succeeds with the full
PD formula. -/
theorem control_some_eq (c : PDController) (r o le : ℚ)
    (h : c.last_error = some le) (hdt : c.dt ≠ 0) :
    c.control r o =
      Except.ok (c.kp * (r - o) + c.kd * (((r - o) - le) / c.dt),
        { c with last_error := some (r - o) }) := by
  simp [control, fdiv, h, hdt]

/-- With a stored error and `dt = 0`, `control` raises and the state at the
raise is the unchanged input state. -/
theorem control_raise_eq (c : PDController) (r o le : ℚ)
    (h : c.last_error = some le) (hdt : c.dt = 0) :
    c.control r o = Except.error (PyError.zeroDivisionError, c) := by
  simp [control, fdiv, h, hdt]

/-- Whenever `control` succeeds, the new state is the old one with
`last_error` overwritten by the freshly computed error. -/
theorem control_ok_state (c : PDController) (r o u : ℚ) (c' : PDController)
    (h : c.control r o = Except.ok (u, c')) :
    c' = { c with last_error := some (r - o) } := by
  cases hle : c.last_error with
  | none =>
      rw [control_none_eq c r o hle] at h
      exact (Prod.mk.injEq .. ▸ (Except.ok.injEq .. ▸ h)).2.symm
  | some le =>
      by_cases hdt : c.dt = 0
      · rw [control_raise_eq c r o le hle hdt] at h
        exact absurd h (by simp)
      · rw [control_some_eq c r o le hle hdt] at h
        exact (Prod.mk.injEq .. ▸ (Except.ok.injEq .. ▸ h)).2.symm

/-- Inversion for a raising `control` call: the carried state is the input
state, the exception is `ZeroDivisionError`, and the raise requires `dt = 0`
with a previous error present. -/
theorem control_error_inv (c : PDController) (r o : ℚ)
    (e : PyError) (cAfter : PDController)
    (h : c.control r o = Except.error (e, cAfter)) :
    cAfter = c ∧ e = PyError.zeroDivisionError ∧ c.dt = 0 ∧
      ∃ le, c.last_error = some le := by
  cases hle : c.last_error with
  | none =>
      rw [control_none_eq c r o hle] at h
      exact absurd h (by simp)
  | some le =>
      by_cases hdt : c.dt = 0
      · rw [control_raise_eq c r o le hle hdt] at h
        injection h with h2
        injection h2 with he hc
        exact ⟨hc.symm, he.symm, hdt, le, rfl⟩
      · rw [control_some_eq c r o le hle hdt] at h
        exact absurd h (by simp)

/-- A call with a zero error on a controller whose history is empty or zero
succeeds and returns the zero action. -/
theorem control_zero_err (c : PDController) (r : ℚ) (hdt : c.dt ≠ 0)
    (hle : c.last_error = none ∨ c.last_error = some 0) :
    c.control r r = Except.ok (0, { c with last_error := some 0 }) := by
  cases hle with
  | inl h => rw [control_none_eq c r r h]; simp
  | inr h => rw [control_some_eq c r r 0 h hdt]; simp

end PDController

/-- A single operation never changes `kp`, `kd` or `dt`. -/
theorem step_preserves_params (c : PDController) (op : Op) :
    (step c op).kp = c.kp ∧ (step c op).kd = c.kd ∧ (step c op).dt = c.dt := by
  cases op with
  | control r o =>
      simp only [step]
      cases h : c.control r o with
      | ok p =>
          obtain ⟨u, c'⟩ := p
          have hc := PDController.control_ok_state c r o u c' h
          subst hc
          exact ⟨rfl, rfl, rfl⟩
      | error p =>
          obtain ⟨e, cAfter⟩ := p
          have hc := (PDController.control_error_inv c r o e cAfter h).1
          subst hc
          exact ⟨rfl, rfl, rfl⟩
  | reset => exact ⟨rfl, rfl, rfl⟩

/-- A sequence of operations never changes `kp`, `kd` or `dt`. -/
theorem runOps_preserves_params (ops : List Op) (c : PDController) :
    (runOps c ops).kp = c.kp ∧ (runOps c ops).kd = c.kd ∧
      (runOps c ops).dt = c.dt := by
  induction ops generalizing c with
  | nil => exact ⟨rfl, rfl, rfl⟩
  | cons op ops ih =>
      have hs := step_preserves_params c op
      have hi := ih (step c op)
      exact ⟨hi.1.trans hs.1, hi.2.1.trans hs.2.1, hi.2.2.trans hs.2.2⟩

/-- Running an appended operation list runs the two parts in order. -/
theorem runOps_append (l1 l2 : List Op) (c : PDController) :
    runOps c (l1 ++ l2) = runOps (runOps c l1) l2 := by
  induction l1 generalizing c with
  | nil => rfl
  | cons op l1 ih =>
      simp only [List.cons_append, runOps]
      exact ih (step c op)

/-- After a successful-or-raising `control` operation with `dt ≠ 0`, the
stored error is the error of that call. -/
theorem step_control_last_error (c : PDController) (r o : ℚ) (hdt : c.dt ≠ 0) :
    (step c (Op.control r o)).last_error = some (r - o) := by
  cases hle : c.last_error with
  | none => simp [step, PDController.control_none_eq c r o hle]
  | some le => simp [step, PDController.control_some_eq c r o le hle hdt]

/-- C1: for every controller in the `NO_HISTORY` state (`last_error = none`,
as after construction or `reset()`), `control(reference, observation)`
returns `kp * (reference - observation)`: the derivative term is zero on the
first active call. -/
theorem first_call_derivative_zero (c : PDController) (reference observation : ℚ)
    (h : c.last_error = none) :
    c.control reference observation =
      Except.ok (c.kp * (reference - observation),
        { c with last_error := some (reference - observation) }) :=
  PDController.control_none_eq c reference observation h

/-- Witness for C1 at the default gains, scenario 6 of the spec:
`control(10, 0)` on a fresh controller returns `0.15 * 10 = 1.5`. -/
theorem first_call_derivative_zero_witness :
    (PDController.init (3/20) (3/5) 1).control 10 0 =
      Except.ok ((3/20 : ℚ) * (10 - 0),
        { PDController.init (3/20) (3/5) 1 with last_error := some (10 - 0) }) :=
  first_call_derivative_zero (PDController.init (3/20) (3/5) 1) 10 0 rfl

/-- C2: for a controller with `dt ≠ 0`, if one `control` call succeeds with
errors `e1 = r1 - o1`, the immediately following call with error
`e2 = r2 - o2` returns `kp*e2 + kd*(e2 - e1)/dt`. -/
theorem second_call_formula (c : PDController) (r1 o1 r2 o2 u1 : ℚ)
    (c1 : PDController) (hdt : c.dt ≠ 0)
    (h1 : c.control r1 o1 = Except.ok (u1, c1)) :
    c1.control r2 o2 =
      Except.ok (c.kp * (r2 - o2) + c.kd * ((r2 - o2) - (r1 - o1)) / c.dt,
        { c1 with last_error := some (r2 - o2) }) := by
  have hc1 := PDController.control_ok_state c r1 o1 u1 c1 h1
  subst hc1
  rw [PDController.control_some_eq { c with last_error := some (r1 - o1) }
    r2 o2 (r1 - o1) rfl hdt]
  simp only [Except.ok.injEq, Prod.mk.injEq]
  refine ⟨?_, trivial⟩
  show c.kp * (r2 - o2) + c.kd * ((r2 - o2 - (r1 - o1)) / c.dt) =
      c.kp * (r2 - o2) + c.kd * (r2 - o2 - (r1 - o1)) / c.dt
  rw [mul_div_assoc]

/-- Witness for C2 at the spec's scenario 6: after `control(10, 0)` the call
`control(10, 2)` returns `0.15*8 + 0.6*(8 - 10)/1 = 0`. -/
theorem second_call_formula_witness :
    (PDController.mk (3/20) (3/5) 1 (some (10 - 0))).control 10 2 =
      Except.ok ((3/20 : ℚ) * (10 - 2) + (3/5) * ((10 - 2) - (10 - 0)) / 1,
        { PDController.mk (3/20) (3/5) 1 (some (10 - 0)) with
            last_error := some (10 - 2) }) :=
  second_call_formula (PDController.mk (3/20) (3/5) 1 none) 10 0 10 2
    ((3/20 : ℚ) * (10 - 0)) (PDController.mk (3/20) (3/5) 1 (some (10 - 0)))
    (by decide)
    (PDController.control_none_eq (PDController.mk (3/20) (3/5) 1 none) 10 0 rfl)

/-- C3 counterexample: with `dt = 0` and a stored previous error, `control`
does not complete normally with a non-finite numeric result — it raises
`ZeroDivisionError` (Python float division by zero raises). -/
theorem dt_zero_propagates_counterexample :
    (PDController.mk (3/20) (3/5) 0 (some 10)).control 10 2 =
      Except.error (PyError.zeroDivisionError,
        PDController.mk (3/20) (3/5) 0 (some 10)) ∧
    ¬ ∃ u c', (PDController.mk (3/20) (3/5) 0 (some 10)).control 10 2 =
        Except.ok (u, c') := by
  constructor
  · rfl
  · rintro ⟨u, c', h⟩
    rw [PDController.control_raise_eq _ 10 2 10 rfl rfl] at h
    exact Except.noConfusion h

/-- C3 (amended): when a controller constructed with `dt = 0` already holds a
previous error, `control` raises `ZeroDivisionError` at the division — it does
not complete normally, and no non-finite value is produced or returned. -/
theorem dt_zero_second_call_raises (c : PDController) (r o le : ℚ)
    (hle : c.last_error = some le) (hdt : c.dt = 0) :
    c.control r o = Except.error (PyError.zeroDivisionError, c) :=
  PDController.control_raise_eq c r o le hle hdt

/-- Witness for the amended C3 at a concrete misconfigured controller. -/
theorem dt_zero_second_call_raises_witness :
    (PDController.mk (1/2) 2 0 (some 3)).control 7 4 =
      Except.error (PyError.zeroDivisionError, PDController.mk (1/2) 2 0 (some 3)) :=
  dt_zero_second_call_raises (PDController.mk (1/2) 2 0 (some 3)) 7 4 3 rfl rfl

/-- C10: atomicity on failure — whenever `control` raises, the state carried
out by the exception is exactly the input state (so `last_error` still holds
its prior value), and the raise can only be the division with `dt = 0` while a
previous error is present. -/
theorem control_failure_atomic (c : PDController) (r o : ℚ)
    (e : PyError) (cAfter : PDController)
    (h : c.control r o = Except.error (e, cAfter)) :
    cAfter = c ∧ e = PyError.zeroDivisionError ∧ c.dt = 0 ∧
      ∃ le, c.last_error = some le :=
  PDController.control_error_inv c r o e cAfter h

/-- Witness for C10 at a concrete raising call. -/
theorem control_failure_atomic_witness :
    PDController.mk 1 1 0 (some 5) = PDController.mk 1 1 0 (some 5) ∧
      PyError.zeroDivisionError = PyError.zeroDivisionError ∧
      (PDController.mk 1 1 0 (some 5)).dt = 0 ∧
      ∃ le, (PDController.mk 1 1 0 (some 5)).last_error = some le :=
  control_failure_atomic (PDController.mk 1 1 0 (some 5)) 2 1
    PyError.zeroDivisionError (PDController.mk 1 1 0 (some 5)) rfl

/-- C4: over every operation sequence on a controller with `dt ≠ 0`,
`last_error` is absent exactly when the most recent operation was construction
(no operations yet) or `reset()`, and after any `control` call it holds that
call's error `reference - observation`. -/
theorem last_error_state_invariant (kp kd dt : ℚ) (ops : List Op) (hdt : dt ≠ 0) :
    ((runOps (PDController.init kp kd dt) ops).last_error = none ↔
      (ops.getLast? = none ∨ ops.getLast? = some Op.reset)) ∧
    ∀ r o, ops.getLast? = some (Op.control r o) →
      (runOps (PDController.init kp kd dt) ops).last_error = some (r - o) := by
  rcases List.eq_nil_or_concat ops with hnil | ⟨L, b, hcat⟩
  · subst hnil
    refine ⟨by simp [runOps, PDController.init], ?_⟩
    intro r o h
    exact absurd h (by simp)
  · subst hcat
    rw [List.concat_eq_append]
    have hrun : runOps (PDController.init kp kd dt) (L ++ [b]) =
        step (runOps (PDController.init kp kd dt) L) b := by
      rw [runOps_append]
      rfl
    have hglast : (L ++ [b]).getLast? = some b := List.getLast?_concat L
    have hdt' : (runOps (PDController.init kp kd dt) L).dt ≠ 0 := by
      have hp := (runOps_preserves_params L (PDController.init kp kd dt)).2.2
      rw [hp]
      exact hdt
    rw [hrun, hglast]
    cases b with
    | reset =>
        constructor
        · simp [step, PDController.reset]
        · intro r o h
          exact absurd h (by simp)
    | control r o =>
        rw [step_control_last_error (runOps (PDController.init kp kd dt) L) r o hdt']
        constructor
        · simp
        · intro r' o' h
          injection h with h2
          injection h2 with hr ho
          subst hr
          subst ho
          rfl

/-- Witness for C4: after `[reset, control(4, 1)]` on a fresh controller the
stored error is `4 - 1`. -/
theorem last_error_state_invariant_witness :
    (runOps (PDController.init 1 1 1) [Op.reset, Op.control 4 1]).last_error =
      some (4 - 1) :=
  (last_error_state_invariant 1 1 1 [Op.reset, Op.control 4 1]
    (by decide)).2 4 1 (by decide)

/-- C5: after any operation sequence, `reset()` followed by `control` with
error `e = r - o` returns `kp * e`, exactly what a fresh controller with the
same parameters returns on its first call. -/
theorem reset_rearms_first_call (kp kd dt r o : ℚ) (ops : List Op) :
    ((runOps (PDController.init kp kd dt) ops).reset).control r o =
      Except.ok (kp * (r - o),
        { (runOps (PDController.init kp kd dt) ops).reset with
            last_error := some (r - o) }) ∧
    (PDController.init kp kd dt).control r o =
      Except.ok (kp * (r - o),
        { PDController.init kp kd dt with last_error := some (r - o) }) := by
  have hp := runOps_preserves_params ops (PDController.init kp kd dt)
  constructor
  · rw [PDController.control_none_eq _ r o rfl]
    exact congrArg (fun q => Except.ok (q * (r - o),
      { (runOps (PDController.init kp kd dt) ops).reset with
          last_error := some (r - o) })) hp.1
  · rw [PDController.control_none_eq _ r o rfl]
    rfl

/-- C6: `reset()` is idempotent — a second consecutive `reset()` leaves the
state unchanged, hence every subsequent sequence of `control` calls returns
the same actions. -/
theorem reset_idempotent (c : PDController) (inputs : List (ℚ × ℚ)) :
    c.reset.reset = c.reset ∧
    controlTrace c.reset.reset inputs = controlTrace c.reset inputs :=
  ⟨rfl, rfl⟩

/-- If every call has a zero error and the controller starts with no history
or a zero stored error, every returned action is zero. -/
theorem controlTrace_zero_error (inputs : List (ℚ × ℚ)) (c : PDController)
    (hdt : c.dt ≠ 0) (hle : c.last_error = none ∨ c.last_error = some 0)
    (hz : ∀ p ∈ inputs, p.1 = p.2) :
    controlTrace c inputs = inputs.map (fun _ => Except.ok 0) := by
  induction inputs generalizing c with
  | nil => rfl
  | cons p rest ih =>
      obtain ⟨r, o⟩ := p
      have hro : r = o := hz (r, o) (List.mem_cons_self _ _)
      subst hro
      simp only [controlTrace, PDController.control_zero_err c r hdt hle,
        List.map_cons]
      refine congrArg _ ?_
      refine ih { c with last_error := some 0 } hdt (Or.inr rfl) ?_
      intro p hp
      exact hz p (List.mem_cons_of_mem _ hp)

/-- C7: zero-error fixed point — starting from a fresh controller with
`dt ≠ 0`, if `reference = observation` on every call then every call
returns `0`, regardless of the gains or the number of calls. -/
theorem zero_error_fixed_point (kp kd dt : ℚ) (inputs : List (ℚ × ℚ))
    (hdt : dt ≠ 0) (hz : ∀ p ∈ inputs, p.1 = p.2) :
    controlTrace (PDController.init kp kd dt) inputs =
      inputs.map (fun _ => Except.ok 0) :=
  controlTrace_zero_error inputs (PDController.init kp kd dt) hdt (Or.inl rfl) hz

/-- Witness for C7 over two zero-error calls at the default gains. -/
theorem zero_error_fixed_point_witness :
    controlTrace (PDController.init (3/20) (3/5) 1) [(2, 2), (7, 7)] =
      [((2 : ℚ), (2 : ℚ)), (7, 7)].map (fun _ => Except.ok 0) :=
  zero_error_fixed_point (3/20) (3/5) 1 [(2, 2), (7, 7)] (by decide) (by decide)

/-- C8: with `dt ≠ 0`, `control` always succeeds (the raising branch of the
embedding is unreachable) and `reset` completes, leaving no stored error. -/
theorem no_runtime_errors (c : PDController) (r o : ℚ) (hdt : c.dt ≠ 0) :
    (∃ u c', c.control r o = Except.ok (u, c')) ∧
      (c.reset).last_error = none := by
  refine ⟨?_, rfl⟩
  cases hle : c.last_error with
  | none => exact ⟨_, _, PDController.control_none_eq c r o hle⟩
  | some le => exact ⟨_, _, PDController.control_some_eq c r o le hle hdt⟩

/-- Witness for C8 at a concrete controller with history and `dt = 2`. -/
theorem no_runtime_errors_witness :
    (∃ u c', (PDController.mk 2 3 2 (some 4)).control 9 6 =
        Except.ok (u, c')) ∧
      ((PDController.mk 2 3 2 (some 4)).reset).last_error = none :=
  no_runtime_errors (PDController.mk 2 3 2 (some 4)) 9 6 (by decide)

/-- C9: frame condition — a successful `control` call and a `reset` call
preserve `kp`, `kd` and `dt`, and each changes nothing but `last_error`. -/
theorem params_frame_condition (c : PDController) (r o u : ℚ)
    (c' : PDController) (h : c.control r o = Except.ok (u, c')) :
    (c'.kp = c.kp ∧ c'.kd = c.kd ∧ c'.dt = c.dt ∧
      c' = { c with last_error := c'.last_error }) ∧
    ((c.reset).kp = c.kp ∧ (c.reset).kd = c.kd ∧ (c.reset).dt = c.dt ∧
      c.reset = { c with last_error := (c.reset).last_error }) := by
  have hc := PDController.control_ok_state c r o u c' h
  subst hc
  exact ⟨⟨rfl, rfl, rfl, rfl⟩, rfl, rfl, rfl, rfl⟩

/-- Witness for C9 at a concrete first call. -/
theorem params_frame_condition_witness :
    ((PDController.mk 1 2 3 (some (5 - 1))).kp = (PDController.mk 1 2 3 none).kp ∧
      (PDController.mk 1 2 3 (some (5 - 1))).kd = (PDController.mk 1 2 3 none).kd ∧
      (PDController.mk 1 2 3 (some (5 - 1))).dt = (PDController.mk 1 2 3 none).dt ∧
      PDController.mk 1 2 3 (some (5 - 1)) =
        { PDController.mk 1 2 3 none with
            last_error := (PDController.mk 1 2 3 (some (5 - 1))).last_error }) ∧
    (((PDController.mk 1 2 3 none).reset).kp = (PDController.mk 1 2 3 none).kp ∧
      ((PDController.mk 1 2 3 none).reset).kd = (PDController.mk 1 2 3 none).kd ∧
      ((PDController.mk 1 2 3 none).reset).dt = (PDController.mk 1 2 3 none).dt ∧
      (PDController.mk 1 2 3 none).reset =
        { PDController.mk 1 2 3 none with
            last_error := ((PDController.mk 1 2 3 none).reset).last_error }) :=
  params_frame_condition (PDController.mk 1 2 3 none) 5 1 ((1 : ℚ) * (5 - 1))
    (PDController.mk 1 2 3 (some (5 - 1)))
    (PDController.control_none_eq (PDController.mk 1 2 3 none) 5 1 rfl)
